import Mathlib

/-!
Verification of `scripts/update_data.py` (office-ticker).

The script is embedded shallowly.  Python/JSON values are modelled by the
inductive type `PyVal` (JSON numbers are modelled as integers; floating
point values are out of scope of every claim considered here).  Dictionary,
list and string operations that can raise in Python are modelled as
`Except String` computations whose error value stands for the raised
exception; operations that cannot raise are pure.  `datetime.fromisoformat`
is modelled for the profile the script feeds it
(`YYYY-MM-DD`, optionally a one-character separator followed by
`HH:MM[:SS][+HH:MM | -HH:MM]`); fractional seconds are not modelled.
Network fetches are external input and are modelled as an environment that
yields, per league, either a parsed scoreboard value or an exception.
-/

/-- A Python value as produced by `json.loads` plus `None`. -/
inductive PyVal where
  | none
  | pyBool (b : Bool)
  | pyInt (n : Int)
  | pyStr (s : String)
  | pyList (xs : List PyVal)
  | pyDict (fs : List (String × PyVal))
  deriving Repr

/-- Python truthiness of a value (`bool(v)`). -/
def truthy : PyVal → Bool
  | .none => false
  | .pyBool b => b
  | .pyInt n => n != 0
  | .pyStr s => s != ""
  | .pyList xs => !xs.isEmpty
  | .pyDict fs => !fs.isEmpty

/-- Python `a or b` (short-circuit on truthiness, value-returning). -/
def pyOr (a b : PyVal) : PyVal := if truthy a then a else b

/-- Key lookup in a dict value: `some v` when the key is present (first
occurrence), `none` when absent or when the value is not a dict. -/
def pyLookup (v : PyVal) (k : String) : Option PyVal :=
  match v with
  | .pyDict fs => (fs.find? (fun p => p.1 == k)).map (fun p => p.2)
  | _ => Option.none

/-- Python `d.get(k)`: `None` when the key is absent, `AttributeError`
when the receiver is not a dict. -/
def py_get (v : PyVal) (k : String) : Except String PyVal :=
  match v with
  | .pyDict _ => .ok ((pyLookup v k).getD .none)
  | _ => .error "AttributeError"

/-- Python `d.get(k, default)`. -/
def py_get_default (v : PyVal) (k : String) (d : PyVal) : Except String PyVal :=
  match v with
  | .pyDict _ => .ok ((pyLookup v k).getD d)
  | _ => .error "AttributeError"

/-- Python `v == s` for a string literal `s` on the right. -/
def pyEqStr (v : PyVal) (s : String) : Bool :=
  match v with
  | .pyStr t => t == s
  | _ => false

/-- Python `v is None`. -/
def isNone : PyVal → Bool
  | .none => true
  | _ => false

/-- Python `len(v)`: defined for lists, strings and dicts, `TypeError`
otherwise. -/
def py_len (v : PyVal) : Except String Nat :=
  match v with
  | .pyList xs => .ok xs.length
  | .pyStr s => .ok s.length
  | .pyDict fs => .ok fs.length
  | _ => .error "TypeError"

/-- Python iteration `for x in v`: list elements, string characters
(as one-character strings), dict keys; `TypeError` otherwise. -/
def py_iter (v : PyVal) : Except String (List PyVal) :=
  match v with
  | .pyList xs => .ok xs
  | .pyStr s => .ok (s.data.map (fun c => .pyStr (String.singleton c)))
  | .pyDict fs => .ok (fs.map (fun p => .pyStr p.1))
  | _ => .error "TypeError"

/-- Python `v[i]` for a natural index: list/string indexing, `KeyError`
on a dict (JSON dict keys are strings, never the integer `i`),
`TypeError` otherwise. -/
def py_index (v : PyVal) (i : Nat) : Except String PyVal :=
  match v with
  | .pyList xs =>
      match xs.get? i with
      | some x => .ok x
      | Option.none => .error "IndexError"
  | .pyStr s =>
      if h : i < s.data.length then .ok (.pyStr (String.singleton (s.data.get ⟨i, h⟩)))
      else .error "IndexError"
  | .pyDict _ => .error "KeyError"
  | _ => .error "TypeError"

/-- Python `v[:250]` followed by iteration over the result (slicing is
defined for lists and strings, `TypeError` otherwise). -/
def py_slice250 (v : PyVal) : Except String (List PyVal) :=
  match v with
  | .pyList xs => .ok (xs.take 250)
  | .pyStr s => .ok ((s.data.take 250).map (fun c => .pyStr (String.singleton c)))
  | _ => .error "TypeError"

/-- Python `a + b` for the value kinds JSON can produce (list/str
concatenation, int/bool arithmetic); `TypeError` on mixed kinds. -/
def py_add (a b : PyVal) : Except String PyVal :=
  match a, b with
  | .pyList x, .pyList y => .ok (.pyList (x ++ y))
  | .pyStr x, .pyStr y => .ok (.pyStr (x ++ y))
  | .pyInt x, .pyInt y => .ok (.pyInt (x + y))
  | .pyInt x, .pyBool y => .ok (.pyInt (x + (if y then 1 else 0)))
  | .pyBool x, .pyInt y => .ok (.pyInt ((if x then 1 else 0) + y))
  | .pyBool x, .pyBool y => .ok (.pyInt ((if x then 1 else 0) + (if y then 1 else 0)))
  | _, _ => .error "TypeError"

/-- Replace the value of a key in a dict association list, keeping the
original position of the key (Python dict update semantics), appending
when the key is new. -/
def setField : List (String × PyVal) → String → PyVal → List (String × PyVal)
  | [], k, v => [(k, v)]
  | (k', v') :: rest, k, v =>
      if k' == k then (k', v) :: rest else (k', v') :: setField rest k v

/-- Python `d[k] = v` on a dict value; `TypeError` otherwise. -/
def py_setitem (d : PyVal) (k : String) (v : PyVal) : Except String PyVal :=
  match d with
  | .pyDict fs => .ok (.pyDict (setField fs k v))
  | _ => .error "TypeError"

/-- Python `d.items()` on a dict value; `AttributeError` otherwise. -/
def py_items (v : PyVal) : Except String (List (String × PyVal)) :=
  match v with
  | .pyDict fs => .ok fs
  | _ => .error "AttributeError"

/-- Python `s.lower()` on a string (ASCII case folding, which covers
every string the script lower-cases). -/
def str_lower (s : String) : String := String.mk (s.data.map Char.toLower)

/-- Python `v.lower()`: defined on strings only. -/
def py_lower (v : PyVal) : Except String String :=
  match v with
  | .pyStr s => .ok (str_lower s)
  | _ => .error "AttributeError"

mutual

/-- Python `repr(v)` (string escaping inside `repr` of a string is not
modelled: the quotes are always plain apostrophes). -/
def pyRepr : PyVal → String
  | .none => "None"
  | .pyBool b => if b then "True" else "False"
  | .pyInt n => toString n
  | .pyStr s => "\x27" ++ s ++ "\x27"
  | .pyList xs => "[" ++ pyReprItems xs ++ "]"
  | .pyDict fs => "\x7b" ++ pyReprFields fs ++ "\x7d"

/-- Comma-separated `repr` of list elements. -/
def pyReprItems : List PyVal → String
  | [] => ""
  | [x] => pyRepr x
  | x :: y :: rest => pyRepr x ++ ", " ++ pyReprItems (y :: rest)

/-- Comma-separated `repr` of dict entries. -/
def pyReprFields : List (String × PyVal) → String
  | [] => ""
  | [(k, v)] => "\x27" ++ k ++ "\x27: " ++ pyRepr v
  | (k, v) :: f :: rest => "\x27" ++ k ++ "\x27: " ++ pyRepr v ++ ", " ++ pyReprFields (f :: rest)

end

/-- Python `str(v)` as used by f-string interpolation. -/
def pyStrOf : PyVal → String
  | .pyStr s => s
  | v => pyRepr v

/-! ## The modelled subset of `datetime.fromisoformat` and `strftime` -/

/-- Result of parsing an ISO timestamp: the broken-down naive/aware
datetime (the zone offset is recorded but, like the date fields, it does
not influence the formatted clock time the script prints). -/
structure PyDT where
  year : Nat
  month : Nat
  day : Nat
  hour : Nat
  minute : Nat
  second : Nat
  offMinutes : Int
  deriving Repr, DecidableEq

/-- Numeric value of a decimal digit character. -/
def digitVal (c : Char) : Option Nat :=
  if c.isDigit then some (c.toNat - 48) else Option.none

/-- Read exactly two decimal digits. -/
def read2 : List Char → Option (Nat × List Char)
  | a :: b :: rest =>
      match digitVal a, digitVal b with
      | some x, some y => some (x * 10 + y, rest)
      | _, _ => Option.none
  | _ => Option.none

/-- Read exactly four decimal digits. -/
def read4 : List Char → Option (Nat × List Char)
  | a :: b :: c :: d :: rest =>
      match digitVal a, digitVal b, digitVal c, digitVal d with
      | some w, some x, some y, some z => some (((w * 10 + x) * 10 + y) * 10 + z, rest)
      | _, _, _, _ => Option.none
  | _ => Option.none

/-- Expect one specific character. -/
def expectChar (c : Char) : List Char → Option (List Char)
  | x :: rest => if x = c then some rest else Option.none
  | [] => Option.none

/-- Parse an optional trailing `+HH:MM` / `-HH:MM` zone offset; the whole
rest of the input must be consumed. -/
def readOffset : List Char → Option Int
  | [] => some 0
  | s :: rest =>
      if s = '+' ∨ s = '-' then
        match read2 rest with
        | some (oh, r1) =>
            match expectChar ':' r1 with
            | some r2 =>
                match read2 r2 with
                | some (om, []) =>
                    if oh ≤ 23 ∧ om ≤ 59 then
                      some (if s = '+' then (oh * 60 + om : Int) else -(oh * 60 + om : Int))
                    else Option.none
                | _ => Option.none
            | Option.none => Option.none
        | Option.none => Option.none
      else Option.none

/-- Parse optional `:SS` seconds then the optional zone offset. -/
def readSecOff : List Char → Option (Nat × Int)
  | ':' :: rest =>
      match read2 rest with
      | some (se, r) =>
          if se ≤ 59 then (readOffset r).map (fun o => (se, o)) else Option.none
      | Option.none => Option.none
  | cs => (readOffset cs).map (fun o => (0, o))

/-- Gregorian leap year. -/
def isLeap (y : Nat) : Bool := (y % 4 == 0 && y % 100 != 0) || y % 400 == 0

/-- Days in a month. -/
def daysInMonth (y m : Nat) : Nat :=
  if m == 2 then (if isLeap y then 29 else 28)
  else if m == 4 || m == 6 || m == 9 || m == 11 then 30
  else 31

/-- Modelled `datetime.fromisoformat`: `YYYY-MM-DD`, optionally a single
separator character followed by `HH:MM[:SS]` and an optional `+HH:MM` /
`-HH:MM` offset.  Field validation mirrors `datetime`: year 1..9999,
month 1..12, day within the month, hour ≤ 23, minute/second ≤ 59. -/
def fromisoformat (s : String) : Option PyDT := do
  let (y, r1) ← read4 s.data
  let r2 ← expectChar '-' r1
  let (mo, r3) ← read2 r2
  let r4 ← expectChar '-' r3
  let (d, r5) ← read2 r4
  if 1 ≤ y ∧ y ≤ 9999 ∧ 1 ≤ mo ∧ mo ≤ 12 ∧ 1 ≤ d ∧ d ≤ daysInMonth y mo then
    match r5 with
    | [] => some ⟨y, mo, d, 0, 0, 0, 0⟩
    | _ :: r6 => do
        let (h, r7) ← read2 r6
        let r8 ← expectChar ':' r7
        let (mi, r9) ← read2 r8
        let (se, off) ← readSecOff r9
        if h ≤ 23 ∧ mi ≤ 59 then some ⟨y, mo, d, h, mi, se, off⟩ else Option.none
  else Option.none

/-- Character-level model of `iso.replace("Z", "+00:00")`: the pattern
is the single character `Z`, so Python's replace substitutes every
occurrence independently. -/
def replace_Z_chars : List Char → List Char
  | [] => []
  | c :: rest =>
      if c = 'Z' then '+' :: '0' :: '0' :: ':' :: '0' :: '0' :: replace_Z_chars rest
      else c :: replace_Z_chars rest

/-- Source line 80: `iso.replace("Z", "+00:00")`. -/
def replace_Z (s : String) : String := String.mk (replace_Z_chars s.data)

/-- Minute-of-day of `dt + timedelta(hours=-5)` (the script's fixed
"Eastern" shift applied to the parsed wall-clock time; only the clock
time is ever displayed, so the day rollover is irrelevant). -/
def et_minutes (dt : PyDT) : Nat :=
  (dt.hour * 60 + dt.minute + 1440 - 300) % 1440

/-- Zero-padded two-digit rendering of a minute count below 60. -/
def two_pad (n : Nat) : String :=
  (if n < 10 then "0" else "") ++ toString n

/-- Python `strftime("%-I:%M %p ET")` applied to a minute-of-day. -/
def strftime_time_et (t : Nat) : String :=
  let h24 := t / 60
  let m := t % 60
  let h12 := if h24 % 12 == 0 then 12 else h24 % 12
  toString h12 ++ ":" ++ two_pad m ++ " " ++ (if h24 < 12 then "AM" else "PM") ++ " ET"

/-! ## `text_has_team` (source lines 100-104) -/

/-- Python substring test `needle in haystack` at the character-list
level. -/
def py_in_chars (needle : List Char) : List Char → Bool
  | [] => needle.isEmpty
  | c :: rest => needle.isPrefixOf (c :: rest) || py_in_chars needle rest

/-- Python `needle in haystack` on strings. -/
def py_in (needle haystack : String) : Bool :=
  py_in_chars needle.data haystack.data

/-- Python `s.startswith(p)`. -/
def py_startswith (s p : String) : Bool :=
  p.data.isPrefixOf s.data

/-- Source `text_has_team`: word-ish boundary matching of a team name
inside a ticker line (both sides lower-cased, the padded team name must
occur inside the padded text, or the text must start with the team name
followed by a space). -/
def text_has_team (text team : String) : Bool :=
  let t := str_lower team
  let s := str_lower text
  py_in (" " ++ t ++ " ") (" " ++ s ++ " ") || py_startswith s (t ++ " ")

/-! ## `build_items` (source lines 37-98) -/

/-- The four name/score values extracted from the competitor list
(source lines 56-73). -/
structure Sides where
  home_team : PyVal
  away_team : PyVal
  home_score : PyVal
  away_score : PyVal
  deriving Repr

/-- Source line 47: `comps[0] if comps else {}` applied to
`ev.get("competitions") or []`. -/
def first_comp (ev : PyVal) : Except String PyVal := do
  let comps := pyOr (← py_get ev "competitions") (.pyList [])
  if truthy comps then py_index comps 0 else pure (.pyDict [])

/-- Source lines 48-49: the lower-cased state of the competition status
type (`pre` / `in` / `post`, empty when missing). -/
def comp_state (comp : PyVal) : Except String String := do
  let status := pyOr (← py_get (pyOr (← py_get comp "status") (.pyDict [])) "type") (.pyDict [])
  py_lower (pyOr (← py_get status "state") (.pyStr ""))

/-- Source lines 58-59: the generator inside `next(...)`, searching the
competitor sequence for the first entry whose `homeAway` tag equals
`tag` (raising on a non-dict entry exactly when the generator would). -/
def find_homeaway : List PyVal → String → Except String (Option PyVal)
  | [], _ => .ok Option.none
  | c :: rest, tag => do
      let v ← py_get c "homeAway"
      if pyEqStr v tag then pure (some c) else find_homeaway rest tag

/-- Source lines 61-66: a side's display name — short name, else full
name, else the literal fallback. -/
def team_name (side : PyVal) (fb : String) : Except String PyVal := do
  let t1 ← py_get side "team"
  let short ← py_get (pyOr t1 (.pyDict [])) "shortDisplayName"
  if truthy short then pure short
  else do
    let t2 ← py_get side "team"
    let disp ← py_get (pyOr t2 (.pyDict [])) "displayName"
    if truthy disp then pure disp else pure (.pyStr fb)

/-- Source lines 56-73: competitor extraction.  With fewer than two
competitors both names are empty strings and both scores are `None`.
With at least two, `next(gen, competitors[i])` evaluates the eager
default `competitors[i]` before consuming the generator. -/
def side_info (comp : PyVal) : Except String Sides := do
  let competitors := pyOr (← py_get comp "competitors") (.pyList [])
  let n ← py_len competitors
  if n ≥ 2 then do
    let elems ← py_iter competitors
    let c0 ← py_index competitors 0
    let homeOpt ← find_homeaway elems "home"
    let home := homeOpt.getD c0
    let c1 ← py_index competitors 1
    let awayOpt ← find_homeaway elems "away"
    let away := awayOpt.getD c1
    let home_team ← team_name home "HOME"
    let away_team ← team_name away "AWAY"
    let home_score ← py_get home "score"
    let away_score ← py_get away "score"
    pure ⟨home_team, away_team, home_score, away_score⟩
  else
    pure ⟨.pyStr "", .pyStr "", .none, .none⟩

/-- Source lines 76-84: the display-time computation.  The whole parse,
shift and format runs under `try ... except Exception`, so a missing,
falsy, non-string or unparsable timestamp always yields the empty
string and never an exception (given the competition value itself
supports `.get`). -/
def time_part_of (comp : PyVal) : Except String String := do
  let iso ← py_get comp "date"
  if truthy iso then
    match iso with
    | .pyStr s =>
        match fromisoformat (replace_Z s) with
        | some dt => pure (strftime_time_et (et_minutes dt))
        | Option.none => pure ""
    | _ => pure ""
  else pure ""

/-- Source line 94: `ev.get("name") or ev.get("shortName") or "Game"`. -/
def fallback_name (ev : PyVal) : Except String PyVal := do
  let n ← py_get ev "name"
  if truthy n then pure n
  else do
    let sn ← py_get ev "shortName"
    if truthy sn then pure sn else pure (.pyStr "Game")

/-- Source lines 86-94: choice of the item text. -/
def event_text (ev : PyVal) (state : String) (sides : Sides) (time_part : String) :
    Except String PyVal :=
  if state == "post" && !isNone sides.home_score && !isNone sides.away_score then
    .ok (.pyStr ("FINAL: " ++ pyStrOf sides.away_team ++ " " ++ pyStrOf sides.away_score
      ++ " — " ++ pyStrOf sides.home_team ++ " " ++ pyStrOf sides.home_score))
  else if state == "in" && !isNone sides.home_score && !isNone sides.away_score then
    .ok (.pyStr ("LIVE: " ++ pyStrOf sides.away_team ++ " " ++ pyStrOf sides.away_score
      ++ " — " ++ pyStrOf sides.home_team ++ " " ++ pyStrOf sides.home_score))
  else if !(time_part == "") && truthy sides.away_team && truthy sides.home_team then
    .ok (.pyStr (pyStrOf sides.away_team ++ " @ " ++ pyStrOf sides.home_team ++ " " ++ time_part))
  else fallback_name ev

/-- One iteration of the `for ev in events[:250]` loop body (source
lines 46-96): `none` when the mode filter skips the event, otherwise
the produced `{"league": ..., "text": ...}` item. -/
def process_event (ev : PyVal) (league_label mode : String) : Except String (Option PyVal) := do
  let comp ← first_comp ev
  let state ← comp_state comp
  if mode == "finals" && !(state == "post") then pure Option.none
  else if mode == "today" && state == "post" then pure Option.none
  else do
    let sides ← side_info comp
    let tp ← time_part_of comp
    let text ← event_text ev state sides tp
    pure (some (.pyDict [("league", .pyStr league_label), ("text", text)]))

/-- The loop of `build_items`, accumulating the appended items in
order. -/
def build_items_go (league_label mode : String) : List PyVal → Except String (List PyVal)
  | [] => .ok []
  | ev :: rest => do
      let o ← process_event ev league_label mode
      let tail ← build_items_go league_label mode rest
      pure (o.toList ++ tail)

/-- Source `build_items` (lines 37-98). -/
def build_items (scoreboard : PyVal) (league_label mode : String) :
    Except String (List PyVal) := do
  let events := pyOr (← py_get scoreboard "events") (.pyList [])
  let evs ← py_slice250 events
  build_items_go league_label mode evs

/-! ## `main` (source lines 115-198) -/

/-- Source lines 31-35: `with_dates`. -/
def with_dates (url dates_value : String) : String :=
  if py_in "?" url then url ++ "&dates=" ++ dates_value
  else url ++ "?dates=" ++ dates_value

/-- Source lines 9-15: the league endpoints, in dict insertion order. -/
def ENDPOINTS : List (String × String) :=
  [("NFL", "https://site.api.espn.com/apis/site/v2/sports/football/nfl/scoreboard"),
   ("NHL", "https://site.api.espn.com/apis/site/v2/sports/hockey/nhl/scoreboard"),
   ("MLB", "https://site.api.espn.com/apis/site/v2/sports/baseball/mlb/scoreboard"),
   ("NCAA", "https://site.api.espn.com/apis/site/v2/sports/football/college-football/scoreboard?groups=80")]

/-- External fetch outcomes for one league: each of the up to three
`fetch_json` calls either returns a parsed JSON value or raises
(transport, timeout or JSON-decode failure). -/
structure LeagueFetch where
  sb_today : Except String PyVal
  sb_finals : Except String PyVal
  sb_fallback : Except String PyVal

/-- Source lines 137-160 (the body of the per-league `try`): both
date-filtered fetches, both `build_items` calls, and the no-dates
fallback fetch when the date-filtered today list is empty. -/
def league_items (f : LeagueFetch) (league : String) :
    Except String (List PyVal × List PyVal) := do
  let sb_t ← f.sb_today
  let sb_f ← f.sb_finals
  let items_today ← build_items sb_t league "today"
  let items_finals ← build_items sb_f league "finals"
  let items_today ←
    if items_today.isEmpty then do
      let sb_fb ← f.sb_fallback
      build_items sb_fb league "today"
    else pure items_today
  pure (items_today, items_finals)

/-- Source lines 133-163: the league loop.  A raised exception is caught
per league (`except Exception`), leaving the accumulators untouched for
that league. -/
def run_leagues (env : String → LeagueFetch) : List PyVal × List PyVal :=
  ENDPOINTS.foldl
    (fun acc p =>
      match league_items (env p.1) p.1 with
      | .ok (t, f) => (acc.1 ++ t, acc.2 ++ f)
      | .error _ => acc)
    ([], [])

/-- Source lines 165-174: conditional wholesale replacement of the two
persisted keys. -/
def merge_phase (data : PyVal) (new_today new_finals : List PyVal) : Except String PyVal := do
  let data ← if new_today.isEmpty then pure data
             else py_setitem data "today" (.pyList (new_today.take 250))
  if new_finals.isEmpty then pure data
  else py_setitem data "finals" (.pyList (new_finals.take 250))

/-- Call-site wrapper of `text_has_team` (source line 185): both
arguments go through `.lower()`, so a non-string team or text raises. -/
def text_has_team_py (text team : PyVal) : Except String Bool :=
  match team, text with
  | .pyStr tm, .pyStr tx => .ok (text_has_team tx tm)
  | .pyStr _, _ => .error "AttributeError"
  | _, _ => .error "AttributeError"

/-- The generator inside `next(...)` at source lines 183-187: first
candidate whose `league` equals the league key and whose text matches
the team. -/
def fav_hit_go : List PyVal → String → PyVal → Except String (Option PyVal)
  | [], _, _ => .ok Option.none
  | it :: rest, lk, team => do
      let lv ← py_get it "league"
      if pyEqStr lv lk then do
        let tv ← py_get_default it "text" (.pyStr "")
        let b ← text_has_team_py tv team
        if b then pure (some it) else fav_hit_go rest lk team
      else fav_hit_go rest lk team

/-- Search of the candidate value (iterated lazily by the generator, so
a non-iterable candidates value raises only when a pair is actually
processed). -/
def fav_hit (candV : PyVal) (lk : String) (team : PyVal) : Except String (Option PyVal) := do
  let items ← py_iter candV
  fav_hit_go items lk team

/-- Source lines 183-191: one (league, team) pair — the first matching
candidate, or the placeholder item. -/
def resolve_pair (candV : PyVal) (lk : String) (team : PyVal) : Except String PyVal := do
  match ← fav_hit candV lk team with
  | some it => pure it
  | Option.none =>
      pure (.pyDict [("league", .pyStr lk),
                     ("text", .pyStr (pyStrOf team ++ " — no game/result today"))])

/-- Source line 182: the inner `for team in teams` loop. -/
def resolve_teams (candV : PyVal) (lk : String) : List PyVal → Except String (List PyVal)
  | [] => .ok []
  | tm :: rest => do
      let x ← resolve_pair candV lk tm
      let xs ← resolve_teams candV lk rest
      pure (x :: xs)

/-- Source lines 181-191: the outer `for league_key, teams in
fav_map.items()` loop. -/
def resolve_favs (candV : PyVal) : List (String × PyVal) → Except String (List PyVal)
  | [] => .ok []
  | (lk, teamsV) :: rest => do
      let teams ← py_iter teamsV
      let xs ← resolve_teams candV lk teams
      let ys ← resolve_favs candV rest
      pure (xs ++ ys)

/-- Source lines 177-196: favorites recomputation and the status-line
stamp, applied to the (possibly just merged) state. -/
def fav_phase (data : PyVal) : Except String PyVal := do
  let fav_mapV ← py_get_default data "favoritesTeams" (.pyDict [])
  let todayV ← py_get_default data "today" (.pyList [])
  let finalsV ← py_get_default data "finals" (.pyList [])
  let candV ← py_add todayV finalsV
  let fav_map ← py_items fav_mapV
  let favs ← resolve_favs candV fav_map
  let data ← py_setitem data "favorites" (.pyList (favs.take 60))
  py_setitem data "statusLine" (.pyStr "NFL • NCAA FB • MLB • NHL — auto-updated")

/-- Source `main` (lines 115-198) after a successful `load_data`: the
state value that `save_data` persists, or the uncaught exception that
aborts the run before any write. -/
def main_model (data0 : PyVal) (env : String → LeagueFetch) : Except String PyVal := do
  let p := run_leagues env
  let d ← merge_phase data0 p.1 p.2
  fav_phase d

/-! ## Helper lemmas -/

/-! ## Concrete inputs used by witnesses and counterexamples -/

/-- Witness for C4 on a concrete `post` event and a concrete `pre`
event. -/
def c4_ev_post : PyVal := .pyDict [
  ("competitions", .pyList [.pyDict [
    ("status", .pyDict [("type", .pyDict [("state", .pyStr "post")])])]])]

def c4_ev_pre : PyVal := .pyDict [
  ("competitions", .pyList [.pyDict [
    ("status", .pyDict [("type", .pyDict [("state", .pyStr "pre")])])]])]

def c4_comp_post : PyVal := .pyDict [
  ("status", .pyDict [("type", .pyDict [("state", .pyStr "post")])])]

def c4_comp_pre : PyVal := .pyDict [
  ("status", .pyDict [("type", .pyDict [("state", .pyStr "pre")])])]

/-- A concrete final event (away Eagles 21, home Cowboys 17). -/
def c3_ev : PyVal := .pyDict [
  ("competitions", .pyList [.pyDict [
    ("status", .pyDict [("type", .pyDict [("state", .pyStr "post")])]),
    ("competitors", .pyList [
      .pyDict [("homeAway", .pyStr "home"),
               ("team", .pyDict [("shortDisplayName", .pyStr "Cowboys")]),
               ("score", .pyStr "17")],
      .pyDict [("homeAway", .pyStr "away"),
               ("team", .pyDict [("shortDisplayName", .pyStr "Eagles")]),
               ("score", .pyStr "21")]])]]),
  ("name", .pyStr "Eagles at Cowboys")]

def c3_comp : PyVal := .pyDict [
  ("status", .pyDict [("type", .pyDict [("state", .pyStr "post")])]),
  ("competitors", .pyList [
    .pyDict [("homeAway", .pyStr "home"),
             ("team", .pyDict [("shortDisplayName", .pyStr "Cowboys")]),
             ("score", .pyStr "17")],
    .pyDict [("homeAway", .pyStr "away"),
             ("team", .pyDict [("shortDisplayName", .pyStr "Eagles")]),
             ("score", .pyStr "21")]])]

def c3_sides : Sides := ⟨.pyStr "Cowboys", .pyStr "Eagles", .pyStr "17", .pyStr "21"⟩

def c3_item : PyVal :=
  .pyDict [("league", .pyStr "NFL"), ("text", .pyStr "FINAL: Eagles 21 — Cowboys 17")]

/-- A scheduled event with a parsable timestamp but no competitors, so
both team names come out empty. -/
def c7_ev : PyVal := .pyDict [
  ("competitions", .pyList [.pyDict [
    ("status", .pyDict [("type", .pyDict [("state", .pyStr "pre")])]),
    ("date", .pyStr "2026-01-03T00:15Z")]])]

def c7_comp : PyVal := .pyDict [
  ("status", .pyDict [("type", .pyDict [("state", .pyStr "pre")])]),
  ("date", .pyStr "2026-01-03T00:15Z")]

def c7_item : PyVal := .pyDict [("league", .pyStr "NFL"), ("text", .pyStr "Game")]

/-- A concrete scheduled event with both team names present. -/
def c7w_ev : PyVal := .pyDict [
  ("competitions", .pyList [.pyDict [
    ("status", .pyDict [("type", .pyDict [("state", .pyStr "pre")])]),
    ("date", .pyStr "2026-01-03T00:15Z"),
    ("competitors", .pyList [
      .pyDict [("homeAway", .pyStr "home"),
               ("team", .pyDict [("shortDisplayName", .pyStr "Cowboys")])],
      .pyDict [("homeAway", .pyStr "away"),
               ("team", .pyDict [("shortDisplayName", .pyStr "Eagles")])]])]])]

def c7w_comp : PyVal := .pyDict [
  ("status", .pyDict [("type", .pyDict [("state", .pyStr "pre")])]),
  ("date", .pyStr "2026-01-03T00:15Z"),
  ("competitors", .pyList [
    .pyDict [("homeAway", .pyStr "home"),
             ("team", .pyDict [("shortDisplayName", .pyStr "Cowboys")])],
    .pyDict [("homeAway", .pyStr "away"),
             ("team", .pyDict [("shortDisplayName", .pyStr "Eagles")])]])]

def c7w_sides : Sides := ⟨.pyStr "Cowboys", .pyStr "Eagles", .none, .none⟩

def c7w_item : PyVal :=
  .pyDict [("league", .pyStr "NFL"), ("text", .pyStr "Eagles @ Cowboys 7:15 PM ET")]

/-- A concrete scheduled event whose timestamp does not parse. -/
def c8_ev : PyVal := .pyDict [
  ("competitions", .pyList [.pyDict [
    ("status", .pyDict [("type", .pyDict [("state", .pyStr "pre")])]),
    ("date", .pyStr "soon")]])]

def c8_comp : PyVal := .pyDict [
  ("status", .pyDict [("type", .pyDict [("state", .pyStr "pre")])]),
  ("date", .pyStr "soon")]

def c10_xs : List PyVal := List.replicate 250 (.pyDict [])

/-- Witness items for C9. -/
def c9_sb : PyVal := .pyDict [("events", .pyList [c3_ev])]

/-- Concrete seeded state: one previously persisted NFL line. -/
def c1_old_item : PyVal := .pyDict [("league", .pyStr "NFL"), ("text", .pyStr "old NFL line")]

def c1_data : PyVal := .pyDict [
  ("today", .pyList [c1_old_item]),
  ("finals", .pyList []),
  ("favoritesTeams", .pyDict [("NFL", .pyList [.pyStr "Cowboys"])])]

/-- Concrete fetch environment: NFL (and MLB, NCAA) raise, NHL succeeds
and contributes one scheduled item. -/
def c1_env : String → LeagueFetch := fun league =>
  if league == "NHL" then
    ⟨.ok (.pyDict [("events", .pyList [c7w_ev])]),
     .ok (.pyDict [("events", .pyList [])]),
     .error "URLError"⟩
  else ⟨.error "URLError", .error "URLError", .error "URLError"⟩

def c1_new_item : PyVal :=
  .pyDict [("league", .pyStr "NHL"), ("text", .pyStr "Eagles @ Cowboys 7:15 PM ET")]

/-- The state the run persists for `c1_data` / `c1_env`. -/
def c1_result : PyVal := .pyDict [
  ("today", .pyList [c1_new_item]),
  ("finals", .pyList []),
  ("favoritesTeams", .pyDict [("NFL", .pyList [.pyStr "Cowboys"])]),
  ("favorites", .pyList [.pyDict [("league", .pyStr "NFL"),
                                  ("text", .pyStr "Cowboys — no game/result today")]]),
  ("statusLine", .pyStr "NFL • NCAA FB • MLB • NHL — auto-updated")]

/-- Environment in which every league's fetch raises. -/
def c1w_env : String → LeagueFetch :=
  fun _ => ⟨.error "timeout", .error "timeout", .error "timeout"⟩

def c1w_result : PyVal := .pyDict [
  ("today", .pyList [c1_old_item]),
  ("finals", .pyList []),
  ("favoritesTeams", .pyDict [("NFL", .pyList [.pyStr "Cowboys"])]),
  ("favorites", .pyList [.pyDict [("league", .pyStr "NFL"),
                                  ("text", .pyStr "Cowboys — no game/result today")]]),
  ("statusLine", .pyStr "NFL • NCAA FB • MLB • NHL — auto-updated")]

/-- The text of a candidate as `it.get("text", "")` reads it for
well-formed candidates. -/
def text_field (it : PyVal) : String :=
  match pyLookup it "text" with
  | some (.pyStr s) => s
  | _ => ""

/-- Declarative matching predicate, following the spec: the candidate's
league equals the league key and its text contains the team name as a
word-ish bounded match. -/
def fav_matches (lk team : String) (it : PyVal) : Bool :=
  pyEqStr ((pyLookup it "league").getD .none) lk && text_has_team (text_field it) team

/-- Well-formedness of a candidate item: a dict whose `text` value,
when present, is a string (every item the script itself builds has this
shape). -/
def candidate_wf (it : PyVal) : Bool :=
  match it with
  | .pyDict _ =>
      match pyLookup it "text" with
      | Option.none => true
      | some (.pyStr _) => true
      | some _ => false
  | _ => false

/-- The spec's own favorites example as a candidate item. -/
def c5_cand : PyVal :=
  .pyDict [("league", .pyStr "NFL"), ("text", .pyStr "Eagles @ Cowboys 7:15 PM ET")]

def c5_d : PyVal := .pyDict [
  ("today", .pyList [c5_cand]),
  ("finals", .pyList []),
  ("favoritesTeams", .pyDict [("NFL", .pyList [.pyStr "Cowboys"])])]

def c5_d2 : PyVal := .pyDict [
  ("today", .pyList [c5_cand]),
  ("finals", .pyList []),
  ("favoritesTeams", .pyDict [("NFL", .pyList [.pyStr "Cowboys"])]),
  ("favorites", .pyList [c5_cand]),
  ("statusLine", .pyStr "NFL • NCAA FB • MLB • NHL — auto-updated")]

theorem except_bind_ok {α β : Type} {x : Except String α} {f : α → Except String β} {b : β} :
    (x >>= f) = Except.ok b ↔ ∃ a, x = Except.ok a ∧ f a = Except.ok b := by
  cases x <;> simp [Bind.bind, Except.bind]

theorem ok_bind {α β : Type} (a : α) (f : α → Except String β) :
    ((Except.ok a : Except String α) >>= f) = f a := rfl

theorem pure_eq_ok {α : Type} (a : α) : (pure a : Except String α) = Except.ok a := rfl

/-! ## Claim C4 -/

/-- Claim C4: with mode `today`, `build_items` emits no item for an event
whose lower-cased first-competition state is `post`; with mode `finals`
it emits an item only for `post` events, so an event with any other
state (including a missing one, which yields the empty state string)
contributes nothing. -/
theorem mode_filter_skips :
    (∀ ev league comp, first_comp ev = .ok comp →
        comp_state comp = .ok "post" →
        process_event ev league "today" = .ok Option.none) ∧
    (∀ ev league comp st, first_comp ev = .ok comp →
        comp_state comp = .ok st → st ≠ "post" →
        process_event ev league "finals" = .ok Option.none) := by
  constructor
  · intro ev league comp hc hs
    simp only [process_event, hc, ok_bind, hs]
    rfl
  · intro ev league comp st hc hs hne
    simp only [process_event, hc, ok_bind, hs]
    rw [if_pos]
    · rfl
    · simp [hne]

theorem mode_filter_skips_witness :
    process_event c4_ev_post "NFL" "today" = .ok Option.none ∧
    process_event c4_ev_pre "NFL" "finals" = .ok Option.none :=
  ⟨mode_filter_skips.1 c4_ev_post "NFL" c4_comp_post rfl rfl,
   mode_filter_skips.2 c4_ev_pre "NFL" c4_comp_pre "pre" rfl rfl (by decide)⟩

/-- Inversion of a successful `process_event` run: either the mode
filter skipped the event, or all stages ran and the item carries the
league label and the chosen text. -/
theorem process_event_inv {ev : PyVal} {l m : String} {o : Option PyVal}
    (h : process_event ev l m = .ok o) :
    ∃ comp st, first_comp ev = .ok comp ∧ comp_state comp = .ok st ∧
      (o = Option.none ∨
       ∃ sides tp text,
         (m == "finals" && !(st == "post")) = false ∧
         (m == "today" && st == "post") = false ∧
         side_info comp = .ok sides ∧ time_part_of comp = .ok tp ∧
         event_text ev st sides tp = .ok text ∧
         o = some (.pyDict [("league", .pyStr l), ("text", text)])) := by
  simp only [process_event] at h
  rcases except_bind_ok.mp h with ⟨comp, hc, h2⟩
  rcases except_bind_ok.mp h2 with ⟨st, hs, h3⟩
  refine ⟨comp, st, hc, hs, ?_⟩
  by_cases hb1 : (m == "finals" && !(st == "post")) = true
  · rw [if_pos hb1] at h3
    simp only [pure_eq_ok, Except.ok.injEq] at h3
    exact Or.inl h3.symm
  · rw [if_neg hb1] at h3
    by_cases hb2 : (m == "today" && st == "post") = true
    · rw [if_pos hb2] at h3
      simp only [pure_eq_ok, Except.ok.injEq] at h3
      exact Or.inl h3.symm
    · rw [if_neg hb2] at h3
      rcases except_bind_ok.mp h3 with ⟨sides, hsd, h4⟩
      rcases except_bind_ok.mp h4 with ⟨tp, htp, h5⟩
      rcases except_bind_ok.mp h5 with ⟨text, htx, h6⟩
      simp only [pure_eq_ok, Except.ok.injEq] at h6
      refine Or.inr ⟨sides, tp, text, ?_, ?_, hsd, htp, htx, h6.symm⟩
      · revert hb1; cases (m == "finals" && !(st == "post")) <;> simp
      · revert hb2; cases (m == "today" && st == "post") <;> simp

/-! ## Claim C3 -/

/-- Claim C3: whenever the normalizer emits an item for an event whose
first-competition state is `post` and whose two competitor scores are
both non-null, the item text is exactly
`FINAL: {away} {awayScore} — {home} {homeScore}`; for state `in` with
both scores present it is the same format with prefix `LIVE:`. -/
theorem final_and_live_text :
    ∀ ev league mode comp st sides it,
      first_comp ev = .ok comp →
      comp_state comp = .ok st →
      side_info comp = .ok sides →
      isNone sides.home_score = false →
      isNone sides.away_score = false →
      process_event ev league mode = .ok (some it) →
      (st = "post" →
        pyLookup it "text" = some (.pyStr ("FINAL: " ++ pyStrOf sides.away_team ++ " "
          ++ pyStrOf sides.away_score ++ " — " ++ pyStrOf sides.home_team ++ " "
          ++ pyStrOf sides.home_score))) ∧
      (st = "in" →
        pyLookup it "text" = some (.pyStr ("LIVE: " ++ pyStrOf sides.away_team ++ " "
          ++ pyStrOf sides.away_score ++ " — " ++ pyStrOf sides.home_team ++ " "
          ++ pyStrOf sides.home_score))) := by
  intro ev league mode comp st sides it hc hs hsd hhs has hpe
  rcases process_event_inv hpe with ⟨comp', st', hc', hs', hcase⟩
  rw [hc] at hc'
  simp only [Except.ok.injEq] at hc'
  subst hc'
  rw [hs] at hs'
  simp only [Except.ok.injEq] at hs'
  subst hs'
  rcases hcase with hnone | ⟨sides', tp, text, hb1, hb2, hsd', htp, htx, heq⟩
  · exact absurd hnone (by simp)
  · rw [hsd] at hsd'
    simp only [Except.ok.injEq] at hsd'
    subst hsd'
    simp only [Option.some.injEq] at heq
    subst heq
    constructor
    · intro hpost
      subst hpost
      simp only [event_text, hhs, has, Bool.not_false, Bool.and_true,
        beq_self_eq_true, Bool.and_self, if_true] at htx
      simp only [Except.ok.injEq] at htx
      rw [← htx]
      rfl
    · intro hin
      subst hin
      simp only [event_text, hhs, has] at htx
      rw [if_neg (by decide), if_pos (by decide)] at htx
      simp only [Except.ok.injEq] at htx
      rw [← htx]
      rfl

theorem final_and_live_text_witness :
    process_event c3_ev "NFL" "finals" = .ok (some c3_item) ∧
    pyLookup c3_item "text" = some (.pyStr "FINAL: Eagles 21 — Cowboys 17") :=
  ⟨rfl,
   (final_and_live_text c3_ev "NFL" "finals" c3_comp "post" c3_sides c3_item
      rfl rfl rfl rfl rfl rfl).1 rfl⟩

/-! ## Claim C7 -/

/-- Claim C7 counterexample: a scheduled (`pre`) event with a parsable
timestamp whose competitor list is empty.  The display time computes to
`7:15 PM ET`, yet the emitted text is the fallback `Game`, not the
claimed `"{away} @ {home} {time} ET"` form (which here would be
`" @  7:15 PM ET"`): the claim omits the requirement that both team
names be non-empty. -/
theorem scheduled_text_counterexample :
    first_comp c7_ev = .ok c7_comp ∧
    comp_state c7_comp = .ok "pre" ∧
    side_info c7_comp = .ok ⟨.pyStr "", .pyStr "", .none, .none⟩ ∧
    time_part_of c7_comp = .ok "7:15 PM ET" ∧
    process_event c7_ev "NFL" "today" = .ok (some c7_item) ∧
    pyLookup c7_item "text" = some (.pyStr "Game") ∧
    ("Game" : String) ≠ " @  7:15 PM ET" :=
  ⟨rfl, rfl, rfl, rfl, rfl, rfl, by decide⟩

/-- Claim C7 (amended): for every event the normalizer emits an item
for, if the state/score combination selects neither the `FINAL:` nor
the `LIVE:` branch, the display time is non-empty and **both team names
are truthy (non-empty)**, then the text is exactly
`{away} @ {home} {time}` where the time is the parsed UTC timestamp
shifted by the fixed -5 h offset and formatted `H:MM AM/PM ET`. -/
theorem scheduled_text :
    (∀ ev league mode comp st sides tp it,
       first_comp ev = .ok comp →
       comp_state comp = .ok st →
       side_info comp = .ok sides →
       time_part_of comp = .ok tp →
       (st == "post" && !isNone sides.home_score && !isNone sides.away_score) = false →
       (st == "in" && !isNone sides.home_score && !isNone sides.away_score) = false →
       (tp == "") = false →
       truthy sides.away_team = true →
       truthy sides.home_team = true →
       process_event ev league mode = .ok (some it) →
       pyLookup it "text" = some (.pyStr (pyStrOf sides.away_team ++ " @ "
         ++ pyStrOf sides.home_team ++ " " ++ tp))) ∧
    (∀ comp s dt,
       py_get comp "date" = .ok (.pyStr s) →
       s ≠ "" →
       fromisoformat (replace_Z s) = some dt →
       time_part_of comp = .ok (strftime_time_et (et_minutes dt))) := by
  constructor
  · intro ev league mode comp st sides tp it hc hs hsd htp hc1 hc2 htpne hat hht hpe
    rcases process_event_inv hpe with ⟨comp', st', hc', hs', hcase⟩
    rw [hc] at hc'
    simp only [Except.ok.injEq] at hc'
    subst hc'
    rw [hs] at hs'
    simp only [Except.ok.injEq] at hs'
    subst hs'
    rcases hcase with hnone | ⟨sides', tp', text, hb1, hb2, hsd', htp', htx, heq⟩
    · exact absurd hnone (by simp)
    · rw [hsd] at hsd'
      simp only [Except.ok.injEq] at hsd'
      subst hsd'
      rw [htp] at htp'
      simp only [Except.ok.injEq] at htp'
      subst htp'
      simp only [Option.some.injEq] at heq
      subst heq
      simp only [event_text, hc1, hc2, htpne, hat, hht, Bool.not_false, Bool.and_self,
        Bool.and_true, if_true, if_false, Bool.false_eq_true, reduceIte] at htx
      simp only [Except.ok.injEq] at htx
      rw [← htx]
      rfl
  · intro comp s dt hdate hne hparse
    simp only [time_part_of, hdate, ok_bind]
    rw [if_pos (show truthy (.pyStr s) = true by simp [truthy, hne])]
    rw [hparse]
    rfl

theorem scheduled_text_witness :
    process_event c7w_ev "NFL" "today" = .ok (some c7w_item) ∧
    pyLookup c7w_item "text" = some (.pyStr "Eagles @ Cowboys 7:15 PM ET") ∧
    time_part_of c7w_comp = .ok (strftime_time_et (et_minutes ⟨2026, 1, 3, 0, 15, 0, 0⟩)) :=
  ⟨rfl,
   scheduled_text.1 c7w_ev "NFL" "today" c7w_comp "pre" c7w_sides "7:15 PM ET" c7w_item
     rfl rfl rfl rfl rfl rfl rfl rfl rfl rfl,
   scheduled_text.2 c7w_comp "2026-01-03T00:15Z" ⟨2026, 1, 3, 0, 15, 0, 0⟩
     rfl (by decide) rfl⟩

/-! ## Claim C8 -/

/-- Claim C8: a missing, falsy, non-string or unparsable competition
timestamp makes the display-time computation return the empty string —
it never raises (the whole computation sits inside
`try ... except Exception`) — and the event still yields an item whose
text comes from the name fallbacks. -/
theorem unparsable_time_fallback :
    (∀ comp v, py_get comp "date" = .ok v →
       (∀ s, v = .pyStr s → fromisoformat (replace_Z s) = Option.none) →
       time_part_of comp = .ok "") ∧
    (∀ ev league mode comp st sides fb,
       first_comp ev = .ok comp →
       comp_state comp = .ok st →
       (mode == "finals" && !(st == "post")) = false →
       (mode == "today" && st == "post") = false →
       side_info comp = .ok sides →
       time_part_of comp = .ok "" →
       (st == "post" && !isNone sides.home_score && !isNone sides.away_score) = false →
       (st == "in" && !isNone sides.home_score && !isNone sides.away_score) = false →
       fallback_name ev = .ok fb →
       process_event ev league mode
         = .ok (some (.pyDict [("league", .pyStr league), ("text", fb)]))) := by
  constructor
  · intro comp v hdate hfail
    simp only [time_part_of, hdate, ok_bind]
    by_cases ht : truthy v = true
    · rw [if_pos ht]
      cases v with
      | pyStr s => simp only [hfail s rfl]; rfl
      | none => rfl
      | pyBool b => rfl
      | pyInt n => rfl
      | pyList xs => rfl
      | pyDict fs => rfl
    · rw [if_neg ht]
      rfl
  · intro ev league mode comp st sides fb hc hs hb1 hb2 hsd htp hc1 hc2 hfb
    simp only [process_event, hc, ok_bind, hs]
    rw [if_neg (by simp [hb1]), if_neg (by simp [hb2])]
    simp only [hsd, ok_bind, htp]
    have htext : event_text ev st sides "" = .ok fb := by
      simp only [event_text, hc1, hc2, Bool.false_eq_true, reduceIte]
      rw [if_neg (by simp)]
      exact hfb
    simp only [htext, ok_bind]
    rfl

theorem unparsable_time_fallback_witness :
    time_part_of c8_comp = .ok "" ∧
    process_event c8_ev "MLB" "today"
      = .ok (some (.pyDict [("league", .pyStr "MLB"), ("text", .pyStr "Game")])) :=
  ⟨unparsable_time_fallback.1 c8_comp (.pyStr "soon") rfl
     (fun s hs => by injection hs with h; rw [← h]; rfl),
   unparsable_time_fallback.2 c8_ev "MLB" "today" c8_comp "pre"
     ⟨.pyStr "", .pyStr "", .none, .none⟩ (.pyStr "Game")
     rfl rfl rfl rfl rfl rfl rfl rfl rfl⟩

/-! ## Claim C10 -/

theorem pyOr_pos {a b : PyVal} (h : truthy a = true) : pyOr a b = a := by
  simp [pyOr, h]

/-- Each loop iteration appends at most one item. -/
theorem build_items_go_length {l m : String} :
    ∀ evs items, build_items_go l m evs = .ok items → items.length ≤ evs.length := by
  intro evs
  induction evs with
  | nil =>
      intro items h
      simp only [build_items_go, Except.ok.injEq] at h
      subst h
      simp
  | cons ev rest ih =>
      intro items h
      simp only [build_items_go] at h
      rcases except_bind_ok.mp h with ⟨o, ho, h2⟩
      rcases except_bind_ok.mp h2 with ⟨tail, htail, h3⟩
      simp only [pure_eq_ok, Except.ok.injEq] at h3
      subst h3
      have h1 : o.toList.length ≤ 1 := by cases o <;> simp
      have h2 := ih tail htail
      simp only [List.length_append, List.length_cons]
      omega

/-- The sliced event list has at most 250 entries. -/
theorem py_slice250_length {v : PyVal} {evs : List PyVal} (h : py_slice250 v = .ok evs) :
    evs.length ≤ 250 := by
  cases v with
  | pyList xs =>
      simp only [py_slice250, Except.ok.injEq] at h
      subst h
      simp [List.length_take]
  | pyStr s =>
      simp only [py_slice250, Except.ok.injEq] at h
      subst h
      simp [List.length_take]
  | none => simp [py_slice250] at h
  | pyBool b => simp [py_slice250] at h
  | pyInt n => simp [py_slice250] at h
  | pyDict fs => simp [py_slice250] at h

/-- On a scoreboard whose `events` value is a non-empty list,
`build_items` is the loop applied to the first 250 events. -/
theorem build_items_on_list (xs : List PyVal) (l m : String) (hx : xs ≠ []) :
    build_items (.pyDict [("events", .pyList xs)]) l m = build_items_go l m (xs.take 250) := by
  have htr : truthy (PyVal.pyList xs) = true := by simp [truthy, hx]
  simp only [build_items]
  rw [show py_get (.pyDict [("events", .pyList xs)]) "events" = .ok (.pyList xs) from rfl,
    ok_bind, pyOr_pos htr,
    show py_slice250 (.pyList xs) = .ok (xs.take 250) from rfl, ok_bind]

/-- Claim C10: `build_items` looks at only the first 250 events — any
events past position 250 do not change the result — and a successful
call returns at most 250 items. -/
theorem events_capped :
    (∀ sb league mode items, build_items sb league mode = .ok items → items.length ≤ 250) ∧
    (∀ league mode (xs extra : List PyVal), xs.length = 250 →
       build_items (.pyDict [("events", .pyList (xs ++ extra))]) league mode
         = build_items (.pyDict [("events", .pyList xs)]) league mode) := by
  constructor
  · intro sb league mode items h
    simp only [build_items] at h
    rcases except_bind_ok.mp h with ⟨e, he, h2⟩
    rcases except_bind_ok.mp h2 with ⟨evs, hsl, hgo⟩
    exact le_trans (build_items_go_length evs items hgo) (py_slice250_length hsl)
  · intro league mode xs extra h250
    have hne : xs ≠ [] := by
      intro h
      rw [h] at h250
      simp at h250
    have hne2 : xs ++ extra ≠ [] := by
      intro h
      rcases List.append_eq_nil.mp h with ⟨h1, _⟩
      exact hne h1
    rw [build_items_on_list _ _ _ hne2, build_items_on_list _ _ _ hne,
      List.take_left' h250, List.take_of_length_le (le_of_eq h250)]

theorem events_capped_witness :
    (build_items (.pyDict [("events", .pyList [c3_ev])]) "NFL" "finals" = .ok [c3_item] ∧
     ([c3_item] : List PyVal).length ≤ 250) ∧
    (c10_xs.length = 250 ∧
     build_items (.pyDict [("events", .pyList (c10_xs ++ [c3_ev]))]) "NFL" "today"
       = build_items (.pyDict [("events", .pyList c10_xs)]) "NFL" "today") :=
  ⟨⟨rfl, events_capped.1 (.pyDict [("events", .pyList [c3_ev])]) "NFL" "finals" [c3_item] rfl⟩,
   ⟨by simp only [c10_xs, List.length_replicate],
    events_capped.2 "NFL" "today" c10_xs [c3_ev]
      (by simp only [c10_xs, List.length_replicate])⟩⟩

/-! ## Claim C6 -/

/-- The substring scan agrees with `List.IsInfix`. -/
theorem py_in_chars_iff (n : List Char) : ∀ h : List Char, py_in_chars n h = true ↔ n <:+: h := by
  intro h
  induction h with
  | nil => simp [py_in_chars, List.isEmpty_iff]
  | cons c rest ih =>
      simp [py_in_chars, ih, List.infix_cons_iff]

/-- Claim C6: `text_has_team` returns true exactly when the lower-cased
team name, padded with one space on each side, occurs inside the
lower-cased text padded the same way — i.e. a case-insensitive match
bounded by spaces or the ends of the text, so a team name that is a
proper substring of a longer word does not match, while a multi-word
team name must occur contiguously. -/
theorem text_has_team_boundary :
    ∀ text team : String,
      text_has_team text team = true ↔
        ∃ pre post : String,
          " " ++ str_lower text ++ " " = pre ++ (" " ++ str_lower team ++ " ") ++ post := by
  intro text team
  constructor
  · intro h
    simp only [text_has_team, py_in, py_startswith, Bool.or_eq_true] at h
    rcases h with h | h
    · rcases (py_in_chars_iff _ _).mp h with ⟨s, t, hst⟩
      refine ⟨String.mk s, String.mk t, String.ext ?_⟩
      simp only [String.data_append] at hst ⊢
      rw [← hst]
    · have hp := List.isPrefixOf_iff_prefix.mp h
      rcases hp with ⟨r, hr⟩
      refine ⟨"", String.mk r ++ " ", String.ext ?_⟩
      simp only [String.data_append] at hr ⊢
      rw [← hr]
      simp
  · intro ⟨pre, post, heq⟩
    have hdata : (" " ++ str_lower text ++ " ").data
        = pre.data ++ (" " ++ str_lower team ++ " ").data ++ post.data := by
      rw [heq]
      simp [String.data_append, List.append_assoc]
    simp only [text_has_team, py_in, py_startswith, Bool.or_eq_true]
    left
    exact (py_in_chars_iff _ _).mpr ⟨pre.data, post.data, hdata.symm⟩

/-! ## Claim C9 -/

/-- A successful `pyEqStr` comparison pins the value down to the
string. -/
theorem pyEqStr_true {v : PyVal} {s : String} (h : pyEqStr v s = true) : v = .pyStr s := by
  cases v <;> simp [pyEqStr] at h
  case pyStr t => rw [h]

/-- A `.get` that compares equal to a string key means the dict really
holds that string under the key. -/
theorem pyLookup_of_get_eqstr {c lv : PyVal} {k s : String}
    (hg : py_get c k = .ok lv) (he : pyEqStr lv s = true) :
    pyLookup c k = some (.pyStr s) := by
  cases c <;> simp only [py_get, Except.ok.injEq, reduceCtorEq] at hg
  case pyDict fs =>
    rw [← pyEqStr_true he, ← hg]
    cases hl : pyLookup (.pyDict fs) k with
    | none =>
        rw [hl] at hg
        simp only [Option.getD_none] at hg
        rw [← hg] at he
        simp [pyEqStr] at he
    | some v => simp [hl]

/-- Every item appended by the loop carries the league label. -/
theorem build_items_go_league {l m : String} :
    ∀ evs items, build_items_go l m evs = .ok items →
      ∀ it ∈ items, pyLookup it "league" = some (.pyStr l) := by
  intro evs
  induction evs with
  | nil =>
      intro items h it hmem
      simp only [build_items_go, Except.ok.injEq] at h
      subst h
      simp at hmem
  | cons ev rest ih =>
      intro items h it hmem
      simp only [build_items_go] at h
      rcases except_bind_ok.mp h with ⟨o, ho, h2⟩
      rcases except_bind_ok.mp h2 with ⟨tail, htail, h3⟩
      simp only [pure_eq_ok, Except.ok.injEq] at h3
      subst h3
      rcases List.mem_append.mp hmem with hm | hm
      · cases o with
        | none => simp at hm
        | some x =>
            simp only [Option.toList_some, List.mem_singleton] at hm
            subst hm
            rcases process_event_inv ho with ⟨comp, st, _, _, hcase⟩
            rcases hcase with hnone | ⟨sides, tp, text, _, _, _, _, _, heq⟩
            · simp at hnone
            · simp only [Option.some.injEq] at heq
              subst heq
              rfl
      · exact ih tail htail it hm

/-- The generator result's league always equals the league key. -/
theorem fav_hit_go_league :
    ∀ cands (lk : String) (team : PyVal) o, fav_hit_go cands lk team = .ok o →
      ∀ it, o = some it → pyLookup it "league" = some (.pyStr lk) := by
  intro cands
  induction cands with
  | nil =>
      intro lk team o h it hit
      simp only [fav_hit_go, Except.ok.injEq] at h
      subst h
      simp at hit
  | cons c rest ih =>
      intro lk team o h it hit
      simp only [fav_hit_go] at h
      rcases except_bind_ok.mp h with ⟨lv, hlv, h2⟩
      by_cases he : pyEqStr lv lk = true
      · rw [if_pos he] at h2
        rcases except_bind_ok.mp h2 with ⟨tv, htv, h3⟩
        rcases except_bind_ok.mp h3 with ⟨b, hb, h4⟩
        by_cases hbt : b = true
        · rw [if_pos hbt] at h4
          simp only [pure_eq_ok, Except.ok.injEq] at h4
          subst h4
          simp only [Option.some.injEq] at hit
          subst hit
          exact pyLookup_of_get_eqstr hlv he
        · rw [if_neg hbt] at h4
          exact ih lk team o h4 it hit
      · rw [if_neg he] at h2
        exact ih lk team o h2 it hit

/-- Claim C9: every item `build_items` returns has its `league` field
equal to the league label it was called with, and every item the
favorites resolver emits — matched candidate or placeholder — has its
`league` field equal to the league key it was resolved for. -/
theorem item_league_labels :
    (∀ sb league mode items, build_items sb league mode = .ok items →
       ∀ it ∈ items, pyLookup it "league" = some (.pyStr league)) ∧
    (∀ candV (lk : String) (team : PyVal) it, resolve_pair candV lk team = .ok it →
       pyLookup it "league" = some (.pyStr lk)) := by
  constructor
  · intro sb league mode items h it hmem
    simp only [build_items] at h
    rcases except_bind_ok.mp h with ⟨e, he, h2⟩
    rcases except_bind_ok.mp h2 with ⟨evs, hsl, hgo⟩
    exact build_items_go_league evs items hgo it hmem
  · intro candV lk team it h
    simp only [resolve_pair, fav_hit] at h
    rcases except_bind_ok.mp h with ⟨o, ho, h2⟩
    rcases except_bind_ok.mp ho with ⟨cands, hcands, hgo⟩
    cases o with
    | none =>
        simp only [pure_eq_ok, Except.ok.injEq] at h2
        subst h2
        rfl
    | some x =>
        simp only [pure_eq_ok, Except.ok.injEq] at h2
        subst h2
        exact fav_hit_go_league cands lk team (some x) hgo x rfl

theorem item_league_labels_witness :
    (build_items c9_sb "NFL" "finals" = .ok [c3_item] ∧
     pyLookup c3_item "league" = some (.pyStr "NFL")) ∧
    (resolve_pair (.pyList []) "NHL" (.pyStr "Rangers")
       = .ok (.pyDict [("league", .pyStr "NHL"),
                       ("text", .pyStr "Rangers — no game/result today")]) ∧
     pyLookup (.pyDict [("league", .pyStr "NHL"),
                        ("text", .pyStr "Rangers — no game/result today")]) "league"
       = some (.pyStr "NHL")) :=
  ⟨⟨rfl, item_league_labels.1 c9_sb "NFL" "finals" [c3_item] rfl c3_item (by simp)⟩,
   ⟨rfl, item_league_labels.2 (.pyList []) "NHL" (.pyStr "Rangers") _ rfl⟩⟩

/-! ## Claim C2 -/

theorem error_bind {α β : Type} (e : String) (f : α → Except String β) :
    ((Except.error e : Except String α) >>= f) = .error e := rfl

/-- Setting one key does not disturb lookups of other keys. -/
theorem setField_find_ne (k k' : String) (v : PyVal) (hne : k' ≠ k) :
    ∀ fs : List (String × PyVal),
      (setField fs k v).find? (fun p => p.1 == k') = fs.find? (fun p => p.1 == k') := by
  intro fs
  induction fs with
  | nil =>
      simp only [setField, List.find?]
      rw [show (k == k') = false by simp [Ne.symm hne]]
  | cons p rest ih =>
      rcases p with ⟨a, b⟩
      simp only [setField]
      by_cases ha : (a == k) = true
      · rw [if_pos ha]
        have hak : a = k := by simpa using ha
        have : (a == k') = false := by simp [hak, Ne.symm hne]
        simp only [List.find?, this]
      · rw [if_neg ha]
        simp only [List.find?]
        cases hak' : (a == k') with
        | true => rfl
        | false => exact ih

/-- Setting a key makes its lookup return the new value. -/
theorem setField_find_self (k : String) (v : PyVal) :
    ∀ fs : List (String × PyVal),
      ((setField fs k v).find? (fun p => p.1 == k)).map (fun p => p.2) = some v := by
  intro fs
  induction fs with
  | nil => simp [setField, List.find?]
  | cons p rest ih =>
      rcases p with ⟨a, b⟩
      simp only [setField]
      by_cases ha : (a == k) = true
      · rw [if_pos ha]
        simp [List.find?, ha]
      · rw [if_neg ha]
        simp only [List.find?]
        rw [show (a == k) = false by simpa using ha]
        exact ih

theorem pyLookup_setitem_ne {d d' : PyVal} {k k' : String} {v : PyVal}
    (hset : py_setitem d k v = .ok d') (hne : k' ≠ k) :
    pyLookup d' k' = pyLookup d k' := by
  cases d <;> simp only [py_setitem, Except.ok.injEq, reduceCtorEq] at hset
  case pyDict fs =>
    rw [← hset]
    simp only [pyLookup]
    rw [setField_find_ne k k' v hne fs]

theorem pyLookup_setitem_self {d d' : PyVal} {k : String} {v : PyVal}
    (hset : py_setitem d k v = .ok d') :
    pyLookup d' k = some v := by
  cases d <;> simp only [py_setitem, Except.ok.injEq, reduceCtorEq] at hset
  case pyDict fs =>
    rw [← hset]
    simp only [pyLookup]
    exact setField_find_self k v fs

/-- Behaviour of the conditional wholesale replacement (source lines
165-174) on the two keys. -/
theorem merge_phase_inv {d d' : PyVal} {nt nf : List PyVal}
    (h : merge_phase d nt nf = .ok d') :
    ((nt ≠ [] → pyLookup d' "today" = some (.pyList (nt.take 250))) ∧
     (nt = [] → pyLookup d' "today" = pyLookup d "today")) ∧
    ((nf ≠ [] → pyLookup d' "finals" = some (.pyList (nf.take 250))) ∧
     (nf = [] → pyLookup d' "finals" = pyLookup d "finals")) := by
  simp only [merge_phase] at h
  cases nt with
  | nil =>
      simp only [List.isEmpty_nil, reduceIte, pure_eq_ok, ok_bind] at h
      cases nf with
      | nil =>
          simp only [List.isEmpty_nil, reduceIte, pure_eq_ok, Except.ok.injEq] at h
          subst h
          exact ⟨⟨fun hc => absurd rfl hc, fun _ => rfl⟩,
                 ⟨fun hc => absurd rfl hc, fun _ => rfl⟩⟩
      | cons y ys =>
          simp only [List.isEmpty_cons, Bool.false_eq_true, reduceIte] at h
          exact ⟨⟨fun hc => absurd rfl hc,
                  fun _ => pyLookup_setitem_ne h (by decide)⟩,
                 ⟨fun _ => pyLookup_setitem_self h,
                  fun hc => absurd hc (by simp)⟩⟩
  | cons x xs =>
      simp only [List.isEmpty_cons, Bool.false_eq_true, reduceIte] at h
      rcases except_bind_ok.mp h with ⟨d1, h1, h2⟩
      cases nf with
      | nil =>
          simp only [List.isEmpty_nil, reduceIte, pure_eq_ok, Except.ok.injEq] at h2
          subst h2
          exact ⟨⟨fun _ => pyLookup_setitem_self h1,
                  fun hc => absurd hc (by simp)⟩,
                 ⟨fun hc => absurd rfl hc,
                  fun _ => pyLookup_setitem_ne h1 (by decide)⟩⟩
      | cons y ys =>
          simp only [List.isEmpty_cons, Bool.false_eq_true, reduceIte] at h2
          refine ⟨⟨?_, fun hc => absurd hc (by simp)⟩,
                  ⟨fun _ => pyLookup_setitem_self h2, fun hc => absurd hc (by simp)⟩⟩
          intro _
          rw [pyLookup_setitem_ne h2 (by decide)]
          exact pyLookup_setitem_self h1

/-- The favorites phase only writes the `favorites` and `statusLine`
keys. -/
theorem fav_phase_preserves {d d' : PyVal} (h : fav_phase d = .ok d') (k : String)
    (h1 : k ≠ "favorites") (h2 : k ≠ "statusLine") :
    pyLookup d' k = pyLookup d k := by
  simp only [fav_phase] at h
  rcases except_bind_ok.mp h with ⟨fmV, _, h3⟩
  rcases except_bind_ok.mp h3 with ⟨todayV, _, h4⟩
  rcases except_bind_ok.mp h4 with ⟨finalsV, _, h5⟩
  rcases except_bind_ok.mp h5 with ⟨candV, _, h6⟩
  rcases except_bind_ok.mp h6 with ⟨fm, _, h7⟩
  rcases except_bind_ok.mp h7 with ⟨favs, _, h8⟩
  rcases except_bind_ok.mp h8 with ⟨d3, hset3, hlast⟩
  rw [pyLookup_setitem_ne hlast h2, pyLookup_setitem_ne hset3 h1]

/-- Claim C2: in a run that reaches the save, `today` and `finals` are
only ever replaced wholesale and independently of each other: a key is
set to the accumulated new list truncated to 250 items when that list
is non-empty, and keeps exactly its previously loaded value when the
accumulated list is empty. -/
theorem wholesale_replacement :
    ∀ data0 env result, main_model data0 env = .ok result →
      ((run_leagues env).1 ≠ [] →
         pyLookup result "today" = some (.pyList ((run_leagues env).1.take 250))) ∧
      ((run_leagues env).1 = [] →
         pyLookup result "today" = pyLookup data0 "today") ∧
      ((run_leagues env).2 ≠ [] →
         pyLookup result "finals" = some (.pyList ((run_leagues env).2.take 250))) ∧
      ((run_leagues env).2 = [] →
         pyLookup result "finals" = pyLookup data0 "finals") := by
  intro data0 env result h
  simp only [main_model] at h
  rcases except_bind_ok.mp h with ⟨d1, hm, hf⟩
  have hmerge := merge_phase_inv hm
  have hpt := fav_phase_preserves hf "today" (by decide) (by decide)
  have hpf := fav_phase_preserves hf "finals" (by decide) (by decide)
  refine ⟨?_, ?_, ?_, ?_⟩
  · intro hnt; rw [hpt]; exact hmerge.1.1 hnt
  · intro hnt; rw [hpt]; exact hmerge.1.2 hnt
  · intro hnf; rw [hpf]; exact hmerge.2.1 hnf
  · intro hnf; rw [hpf]; exact hmerge.2.2 hnf

theorem wholesale_replacement_witness :
    main_model c1_data c1_env = .ok c1_result ∧
    (run_leagues c1_env).1 ≠ [] ∧
    pyLookup c1_result "today" = some (.pyList ((run_leagues c1_env).1.take 250)) ∧
    (run_leagues c1_env).2 = [] ∧
    pyLookup c1_result "finals" = pyLookup c1_data "finals" :=
  ⟨rfl,
   by rw [show (run_leagues c1_env).1 = [c1_new_item] from rfl]; simp,
   (wholesale_replacement c1_data c1_env c1_result rfl).1
     (by rw [show (run_leagues c1_env).1 = [c1_new_item] from rfl]; simp),
   rfl,
   (wholesale_replacement c1_data c1_env c1_result rfl).2.2.2 rfl⟩

/-! ## Claim C1 -/

/-- Claim C1 counterexample: seed the state with one NFL `today` line,
make the NFL fetch raise while the NHL fetch succeeds and contributes a
new item.  After the run the persisted `today` key holds only the NHL
item: the previously persisted NFL entry is *not* retained, refuting
the "regardless of whether the fetches for the other leagues succeed
and contribute new items" part of the claim. -/
theorem failed_fetch_retention_counterexample :
    (c1_env "NFL").sb_today = .error "URLError" ∧
    pyLookup c1_data "today" = some (.pyList [c1_old_item]) ∧
    pyLookup c1_old_item "league" = some (.pyStr "NFL") ∧
    main_model c1_data c1_env = .ok c1_result ∧
    pyLookup c1_result "today" = some (.pyList [c1_new_item]) ∧
    pyLookup c1_new_item "league" = some (.pyStr "NHL") ∧
    ("NHL" : String) ≠ "NFL" :=
  ⟨rfl, rfl, rfl, rfl, rfl, rfl, by decide⟩

/-- Claim C1 (amended): when a league's fetch raises, the per-league
try-block fails as a whole, so that league contributes nothing to the
accumulated lists for this run; the previously persisted `today` /
`finals` entries are retained only when the corresponding accumulated
list stays empty across all leagues (e.g. when every league fails) —
when another league does contribute items, the key is replaced
wholesale and the failed league's old entries are dropped. -/
theorem failed_fetch_retention :
    (∀ (f : LeagueFetch) (league e : String), f.sb_today = .error e →
       league_items f league = .error e) ∧
    (∀ (f : LeagueFetch) (league : String) (acc : List PyVal × List PyVal) (e : String),
       league_items f league = .error e →
       (match league_items f league with
        | .ok (t, fi) => (acc.1 ++ t, acc.2 ++ fi)
        | .error _ => acc) = acc) ∧
    (∀ data0 env result, main_model data0 env = .ok result →
       ((run_leagues env).1 = [] → pyLookup result "today" = pyLookup data0 "today") ∧
       ((run_leagues env).2 = [] → pyLookup result "finals" = pyLookup data0 "finals")) := by
  refine ⟨?_, ?_, ?_⟩
  · intro f league e hf
    simp only [league_items, hf, error_bind]
  · intro f league acc e herr
    rw [herr]
  · intro data0 env result h
    have hw := wholesale_replacement data0 env result h
    exact ⟨hw.2.1, hw.2.2.2⟩

theorem failed_fetch_retention_witness :
    league_items (c1w_env "NFL") "NFL" = .error "timeout" ∧
    main_model c1_data c1w_env = .ok c1w_result ∧
    pyLookup c1w_result "today" = pyLookup c1_data "today" ∧
    pyLookup c1w_result "finals" = pyLookup c1_data "finals" :=
  ⟨failed_fetch_retention.1 (c1w_env "NFL") "NFL" "timeout" rfl,
   rfl,
   (failed_fetch_retention.2.2 c1_data c1w_env c1w_result rfl).1 rfl,
   (failed_fetch_retention.2.2 c1_data c1w_env c1w_result rfl).2 rfl⟩

/-! ## Claim C5 -/

theorem wf_get_league {c : PyVal} (h : candidate_wf c = true) :
    py_get c "league" = .ok ((pyLookup c "league").getD .none) := by
  cases c with
  | pyDict fs => rfl
  | none => simp [candidate_wf] at h
  | pyBool b => simp [candidate_wf] at h
  | pyInt n => simp [candidate_wf] at h
  | pyStr s => simp [candidate_wf] at h
  | pyList xs => simp [candidate_wf] at h

theorem wf_get_text {c : PyVal} (h : candidate_wf c = true) :
    py_get_default c "text" (.pyStr "") = .ok (.pyStr (text_field c)) := by
  cases c with
  | pyDict fs =>
      simp only [py_get_default, Except.ok.injEq]
      cases hl : pyLookup (.pyDict fs) "text" with
      | none => simp [text_field, hl]
      | some v =>
          cases v with
          | pyStr s => simp [text_field, hl]
          | none => simp [candidate_wf, hl] at h
          | pyBool b => simp [candidate_wf, hl] at h
          | pyInt n => simp [candidate_wf, hl] at h
          | pyList xs => simp [candidate_wf, hl] at h
          | pyDict gs => simp [candidate_wf, hl] at h
  | none => simp [candidate_wf] at h
  | pyBool b => simp [candidate_wf] at h
  | pyInt n => simp [candidate_wf] at h
  | pyStr s => simp [candidate_wf] at h
  | pyList xs => simp [candidate_wf] at h

/-- The exception-threaded first-match loop agrees with `List.find?`
over the declarative predicate on well-formed candidates. -/
theorem fav_hit_go_find (lk team : String) :
    ∀ cands, (∀ it ∈ cands, candidate_wf it = true) →
      fav_hit_go cands lk (.pyStr team) = .ok (cands.find? (fav_matches lk team)) := by
  intro cands
  induction cands with
  | nil => intro _; rfl
  | cons c rest ih =>
      intro hwf
      have hc := hwf c (by simp)
      have hrest : ∀ it ∈ rest, candidate_wf it = true :=
        fun it hit => hwf it (by simp [hit])
      simp only [fav_hit_go, wf_get_league hc, ok_bind]
      by_cases he : pyEqStr ((pyLookup c "league").getD .none) lk = true
      · rw [if_pos he]
        simp only [wf_get_text hc, ok_bind, text_has_team_py]
        by_cases hb : text_has_team (text_field c) team = true
        · rw [if_pos hb, List.find?_cons_of_pos _ (by simp [fav_matches, he, hb])]
          rfl
        · have hb' : text_has_team (text_field c) team = false := by
            revert hb; cases text_has_team (text_field c) team <;> simp
          rw [if_neg hb, List.find?_cons_of_neg _ (by simp [fav_matches, hb']), ih hrest]
      · have he' : pyEqStr ((pyLookup c "league").getD .none) lk = false := by
          revert he; cases pyEqStr ((pyLookup c "league").getD .none) lk <;> simp
        rw [if_neg he, List.find?_cons_of_neg _ (by simp [fav_matches, he']), ih hrest]

/-- Claim C5: for a (league, team) pair the resolver returns the first
candidate whose league equals the key and whose text matches the team
(`List.find?` over the declarative predicate), or the placeholder
`{league, "{team} — no game/result today"}` when none matches; the
inner/outer loops emit results in team-list order inside mapping
iteration order, and the `favorites` key the run persists is the
resolved list truncated to 60 entries. -/
theorem favorites_resolution :
    (∀ (cands : List PyVal) (lk team : String),
       (∀ it ∈ cands, candidate_wf it = true) →
       resolve_pair (.pyList cands) lk (.pyStr team)
         = .ok ((cands.find? (fav_matches lk team)).getD
             (.pyDict [("league", .pyStr lk),
                       ("text", .pyStr (team ++ " — no game/result today"))]))) ∧
    (∀ candV (lk : String) (tm : PyVal) rest x xs,
       resolve_pair candV lk tm = .ok x →
       resolve_teams candV lk rest = .ok xs →
       resolve_teams candV lk (tm :: rest) = .ok (x :: xs)) ∧
    (∀ candV (lk : String) (teamsV : PyVal) rest teams xs ys,
       py_iter teamsV = .ok teams →
       resolve_teams candV lk teams = .ok xs →
       resolve_favs candV rest = .ok ys →
       resolve_favs candV ((lk, teamsV) :: rest) = .ok (xs ++ ys)) ∧
    (∀ d d' favs candV fm fmV todayV finalsV,
       py_get_default d "favoritesTeams" (.pyDict []) = .ok fmV →
       py_get_default d "today" (.pyList []) = .ok todayV →
       py_get_default d "finals" (.pyList []) = .ok finalsV →
       py_add todayV finalsV = .ok candV →
       py_items fmV = .ok fm →
       resolve_favs candV fm = .ok favs →
       fav_phase d = .ok d' →
       pyLookup d' "favorites" = some (.pyList (favs.take 60))) := by
  refine ⟨?_, ?_, ?_, ?_⟩
  · intro cands lk team hwf
    simp only [resolve_pair, fav_hit]
    rw [show py_iter (.pyList cands) = .ok cands from rfl, ok_bind,
      fav_hit_go_find lk team cands hwf, ok_bind]
    cases h : cands.find? (fav_matches lk team) with
    | none => rfl
    | some it => rfl
  · intro candV lk tm rest x xs h1 h2
    simp only [resolve_teams, h1, ok_bind, h2, ok_bind]
    rfl
  · intro candV lk teamsV rest teams xs ys h1 h2 h3
    simp only [resolve_favs, h1, ok_bind, h2, ok_bind, h3, ok_bind]
    rfl
  · intro d d' favs candV fm fmV todayV finalsV h1 h2 h3 h4 h5 h6 h
    simp only [fav_phase] at h
    rcases except_bind_ok.mp h with ⟨fmV', hfm', hh⟩
    rw [h1] at hfm'
    simp only [Except.ok.injEq] at hfm'
    subst hfm'
    rcases except_bind_ok.mp hh with ⟨todayV', ht', hh⟩
    rw [h2] at ht'
    simp only [Except.ok.injEq] at ht'
    subst ht'
    rcases except_bind_ok.mp hh with ⟨finalsV', hf', hh⟩
    rw [h3] at hf'
    simp only [Except.ok.injEq] at hf'
    subst hf'
    rcases except_bind_ok.mp hh with ⟨candV', hc', hh⟩
    rw [h4] at hc'
    simp only [Except.ok.injEq] at hc'
    subst hc'
    rcases except_bind_ok.mp hh with ⟨fm', hfm2', hh⟩
    rw [h5] at hfm2'
    simp only [Except.ok.injEq] at hfm2'
    subst hfm2'
    rcases except_bind_ok.mp hh with ⟨favs', hfa', hh⟩
    rw [h6] at hfa'
    simp only [Except.ok.injEq] at hfa'
    subst hfa'
    rcases except_bind_ok.mp hh with ⟨d3, hset3, hlast⟩
    rw [pyLookup_setitem_ne hlast (by decide)]
    exact pyLookup_setitem_self hset3

theorem favorites_resolution_witness :
    resolve_pair (.pyList [c5_cand]) "NFL" (.pyStr "Cowboys") = .ok c5_cand ∧
    resolve_teams (.pyList [c5_cand]) "NFL" [.pyStr "Cowboys"] = .ok [c5_cand] ∧
    resolve_favs (.pyList [c5_cand]) [("NFL", .pyList [.pyStr "Cowboys"])] = .ok [c5_cand] ∧
    fav_phase c5_d = .ok c5_d2 ∧
    pyLookup c5_d2 "favorites" = some (.pyList ([c5_cand].take 60)) :=
  ⟨favorites_resolution.1 [c5_cand] "NFL" "Cowboys"
     (by intro it hit; rw [List.mem_singleton.mp hit]; rfl),
   favorites_resolution.2.1 (.pyList [c5_cand]) "NFL" (.pyStr "Cowboys") [] c5_cand []
     rfl rfl,
   favorites_resolution.2.2.1 (.pyList [c5_cand]) "NFL" (.pyList [.pyStr "Cowboys"]) []
     [.pyStr "Cowboys"] [c5_cand] [] rfl rfl rfl,
   rfl,
   favorites_resolution.2.2.2 c5_d c5_d2 [c5_cand] (.pyList [c5_cand])
     [("NFL", .pyList [.pyStr "Cowboys"])] (.pyDict [("NFL", .pyList [.pyStr "Cowboys"])])
     (.pyList [c5_cand]) (.pyList []) rfl rfl rfl rfl rfl rfl rfl⟩
